import Mathlib

/-!
Verification of the send-tx-service repository: an idempotent blockchain
transaction submission service.  The embedding below translates the Python
sources (`app/schemas.py`, `app/models.py`, `app/rpc_client.py`,
`app/main.py`) into Lean definitions:

* the pydantic field validators of `SendTxRequest` become boolean checks,
  including a faithful model of CPython's `int(s, 16)` acceptance grammar
  (restricted to ASCII characters, which covers every input considered here);
* the SQLAlchemy `Transaction` model becomes a structure, the database a
  `List Transaction`, the composite `UniqueConstraint` the `insertUnique`
  operation (SQL `NULL` keys are exempt from the constraint, and an SQL
  equality comparison against `NULL` matches no row);
* the `/send-tx` endpoint body becomes `send_tx`, parameterised by the fresh
  `uuid4` identifier and the RPC outcome (the external call either returns a
  hash or raises); the returned `Nat` counts external RPC invocations;
* `send_tx_oracle` is the same endpoint control flow written against the
  abstract responses of the store collaborator, used to reason about store
  behaviours (such as a failed conflict re-read) that the in-memory list
  store cannot itself produce;
* `Step`/`Reachable` give a small-step interleaving semantics for N
  concurrent requests sharing one request body, with the store lookup and
  the unique-constrained insert as the atomic shared-state actions.
-/

namespace SendTxService

/-! ## Request validation (`app/schemas.py`) -/

/-- ASCII hexadecimal digit, as accepted by CPython's base-16 digit scan. -/
def isHexDigitA (c : Char) : Bool :=
  ('0' ≤ c && c ≤ '9') || ('a' ≤ c && c ≤ 'f') || ('A' ≤ c && c ≤ 'F')

/-- ASCII whitespace stripped by CPython's `int(str, base)` conversion. -/
def isPySpace (c : Char) : Bool :=
  c = ' ' || c = '\t' || c = '\n' || c = '\x0d' || c = '\x0b' || c = '\x0c'

/-- Drop leading characters satisfying `isPySpace`. -/
def stripLeadWs : List Char → List Char
  | [] => []
  | c :: r => if isPySpace c then stripLeadWs r else c :: r

/-- Strip `isPySpace` characters from both ends. -/
def stripWs (l : List Char) : List Char :=
  ((stripLeadWs l).reverse |> stripLeadWs).reverse

/-- Drop one optional leading sign, as `int(s, 16)` allows. -/
def stripSign : List Char → List Char
  | '+' :: r => r
  | '-' :: r => r
  | l => l

/-- Digit run with single underscores allowed between digits (PEP 515),
as accepted after the optional base marker by `int(s, 16)`. -/
def pyHexBody : List Char → Bool
  | [] => false
  | [c] => isHexDigitA c
  | c :: '_' :: rest => isHexDigitA c && pyHexBody rest
  | c :: rest => isHexDigitA c && pyHexBody rest

/-- Model of `int(s, 16)` succeeding on an ASCII string `s`: optional
surrounding whitespace, one optional sign, one optional redundant `0x`/`0X`
marker (possibly followed by one underscore), then hex digits with single
underscores between them. -/
def pyIntValid16 (l : List Char) : Bool :=
  match stripSign (stripWs l) with
  | '0' :: 'x' :: r =>
      (match r with
       | '_' :: r2 => pyHexBody r2
       | _ => pyHexBody r)
  | '0' :: 'X' :: r =>
      (match r with
       | '_' :: r2 => pyHexBody r2
       | _ => pyHexBody r)
  | r => pyHexBody r

/-- Python's `v.startswith("0x")`. -/
def startsWith0x : List Char → Bool
  | '0' :: 'x' :: _ => true
  | _ => false

/-- The request body of the `/send-tx` endpoint (`SendTxRequest` in
`app/schemas.py`); `idempotency_key` is `Optional[str]` defaulting to
`None`. -/
structure SendTxRequest where
  chain : String
  from_address : String
  to_address : String
  value_wei : Int
  data : String
  idempotency_key : Option String
deriving DecidableEq, Repr

/-- `validate_chain`: membership in the allow-set. -/
def validate_chain (v : String) : Bool :=
  v == "ethereum" || v == "polygon" || v == "sepolia"

/-- `validate_address`: requires the `0x` lead, exactly 42 characters, and
that `int(v[2:], 16)` succeeds. -/
def validate_address (v : String) : Bool :=
  startsWith0x v.toList && (v.toList.length == 42) && pyIntValid16 (v.toList.drop 2)

/-- `validate_value`: rejects a negative `value_wei` (the `isinstance`
check always passes once pydantic has coerced the field to `int`). -/
def validate_value (v : Int) : Bool :=
  !(decide (v < 0))

/-- `validate_data`: requires the `0x` lead. -/
def validate_data (v : String) : Bool :=
  startsWith0x v.toList

/-- A request passes the pydantic model iff every field validator accepts. -/
def validRequest (r : SendTxRequest) : Bool :=
  validate_chain r.chain && validate_address r.from_address &&
    validate_address r.to_address && validate_value r.value_wei &&
    validate_data r.data

/-- Modelled from the spec's words, for comparison with the code's
`validate_address`: an address that is exactly `0x` followed by 40
hexadecimal characters. -/
def specAddressShape (v : String) : Bool :=
  startsWith0x v.toList && (v.toList.length == 42) &&
    (v.toList.drop 2).all isHexDigitA

/-! ## The store (`app/models.py`) -/

/-- The durable `Transaction` record of `app/models.py`. -/
structure Transaction where
  tx_id : String
  chain : String
  from_address : String
  to_address : String
  value_wei : Int
  data : String
  idempotency_key : Option String
  tx_hash : String
  status : String
deriving DecidableEq, Repr

/-- Row predicate of the queries in `app/main.py`: equality on
(chain, from_address, idempotency_key) against a non-null key. -/
def matchesTriple (chain fromAddr key : String) (t : Transaction) : Bool :=
  t.chain == chain && t.from_address == fromAddr && t.idempotency_key == some key

/-- The `db.query(Transaction).filter(...).first()` lookup.  When the key
bound in the filter is SQL `NULL`, the comparison matches no row. -/
def findByTriple (store : List Transaction) (chain fromAddr : String)
    (key : Option String) : Option Transaction :=
  match key with
  | none => none
  | some k => store.find? (matchesTriple chain fromAddr k)

/-- Outcome of `db.add` + `db.commit` under the composite
`UniqueConstraint('chain', 'from_address', 'idempotency_key')`. -/
inductive InsertOutcome where
  | inserted (store : List Transaction)
  | conflict
deriving DecidableEq, Repr

/-- Atomic unique-constrained insert: rows whose `idempotency_key` is SQL
`NULL` are exempt from the constraint; a non-null key conflicts exactly when
a row with the same triple already exists. -/
def insertUnique (store : List Transaction) (t : Transaction) : InsertOutcome :=
  match t.idempotency_key with
  | none => .inserted (store ++ [t])
  | some k =>
      if store.any (matchesTriple t.chain t.from_address k) then .conflict
      else .inserted (store ++ [t])

/-- Between two rows: if the first carries a non-null key, they do not share
the (chain, from_address, idempotency_key) triple. -/
def tripleOk (a b : Transaction) : Prop :=
  a.idempotency_key ≠ none →
    ¬(a.chain = b.chain ∧ a.from_address = b.from_address ∧
        a.idempotency_key = b.idempotency_key)

/-- The store-wide uniqueness invariant enforced by the constraint. -/
def UniqueTriples (store : List Transaction) : Prop :=
  store.Pairwise tripleOk

/-! ## The endpoint (`app/main.py`, `app/rpc_client.py`) -/

/-- The response body (`SendTxResponse` in `app/schemas.py`). -/
structure SendTxResponse where
  tx_id : String
  tx_hash : String
  status : String
deriving DecidableEq, Repr

/-- The response constructed from a stored record. -/
def respOf (t : Transaction) : SendTxResponse :=
  ⟨t.tx_id, t.tx_hash, t.status⟩

/-- Outcome of one `rpc_client.send_transaction` call: the stubbed client
returns a hash string; a failing external call raises instead. -/
inductive RpcOutcome where
  | ok (txHash : String)
  | fail
deriving DecidableEq, Repr

/-- The observable result of one `/send-tx` call:
`created` is the 201 path, `replayed` the 200 idempotent-replay path,
`submissionFailed` the propagated RPC exception, and `integrityError` the
`HTTPException(500, "Database integrity error")`. -/
inductive SendResult where
  | created (resp : SendTxResponse)
  | replayed (resp : SendTxResponse)
  | submissionFailed
  | integrityError
deriving DecidableEq, Repr

/-- Python truthiness of the `Optional[str]` idempotency key, as used by
`if request.idempotency_key:` — `None` and the empty string are falsy. -/
def truthy : Option String → Bool
  | none => false
  | some s => !(s == "")

/-- The `Transaction(...)` row built in step 3 of the endpoint, with the
fresh `uuid4` identifier and the hash returned by the RPC call. -/
def mkRecord (req : SendTxRequest) (freshId txHash : String) : Transaction :=
  ⟨freshId, req.chain, req.from_address, req.to_address, req.value_wei,
    req.data, req.idempotency_key, txHash, "submitted"⟩

/-- Step 1 of the endpoint: the fast idempotency check, attempted only when
the key is truthy. -/
def fastCheck (req : SendTxRequest) (store : List Transaction) :
    Option Transaction :=
  if truthy req.idempotency_key then
    findByTriple store req.chain req.from_address req.idempotency_key
  else none

/-- The `/send-tx` endpoint body (`send_tx` in `app/main.py`), with the
store passed and returned explicitly.  The result triple is
(HTTP outcome, store after the call, number of external RPC calls made). -/
def send_tx (req : SendTxRequest) (freshId : String) (rpc : RpcOutcome)
    (store : List Transaction) : SendResult × List Transaction × Nat :=
  match fastCheck req store with
  | some ex => (.replayed (respOf ex), store, 0)
  | none =>
    match rpc with
    | .fail => (.submissionFailed, store, 1)
    | .ok h =>
      match insertUnique store (mkRecord req freshId h) with
      | .inserted store2 => (.created ⟨freshId, h, "submitted"⟩, store2, 1)
      | .conflict =>
        match findByTriple store req.chain req.from_address
            req.idempotency_key with
        | some ex => (.replayed (respOf ex), store, 1)
        | none => (.integrityError, store, 1)

/-- Tag of the store's answer to the insert attempt, abstracted from the
concrete list store. -/
inductive InsertTag where
  | ok
  | conflict
deriving DecidableEq, Repr

/-- Tag of `insertUnique` on the concrete list store. -/
def insertTag (store : List Transaction) (t : Transaction) : InsertTag :=
  match insertUnique store t with
  | .inserted _ => .ok
  | .conflict => .conflict

/-- The same endpoint control flow written against the abstract answers of
the store collaborator: `fastRes` is the row the fast-check lookup would
return, `insRes` the store's verdict on the insert, `rereadRes` the row the
conflict re-read would return.  Returns the HTTP outcome and the number of
external RPC calls made. -/
def send_tx_oracle (req : SendTxRequest) (freshId : String)
    (fastRes : Option Transaction) (rpc : RpcOutcome) (insRes : InsertTag)
    (rereadRes : Option Transaction) : SendResult × Nat :=
  match (if truthy req.idempotency_key then fastRes else none) with
  | some ex => (.replayed (respOf ex), 0)
  | none =>
    match rpc with
    | .fail => (.submissionFailed, 1)
    | .ok h =>
      match insRes with
      | .ok => (.created ⟨freshId, h, "submitted"⟩, 1)
      | .conflict =>
        match rereadRes with
        | some ex => (.replayed (respOf ex), 1)
        | none => (.integrityError, 1)

/-- Result of one request as seen at the HTTP boundary, with pydantic
validation in front of the endpoint. -/
inductive HandleResult where
  | ok (r : SendResult)
  | validationError
deriving DecidableEq, Repr

/-- The full boundary: pydantic rejects a request failing any field
validator with 422 before the endpoint body runs (no store access, no RPC
call); otherwise the endpoint runs. -/
def handle (req : SendTxRequest) (freshId : String) (rpc : RpcOutcome)
    (store : List Transaction) : HandleResult × List Transaction × Nat :=
  if validRequest req then
    match send_tx req freshId rpc store with
    | (r, s, c) => (.ok r, s, c)
  else (.validationError, store, 0)

/-! ## Interleaving semantics for concurrent requests -/

/-- Local control point of one in-flight request: `start` is before the
fast check, `checked` between the fast check and the RPC call, `toInsert`
between the RPC call and the insert, `conflicted` between an insert
conflict and the re-read.  The fresh identifier and the hash the RPC call
will return are fixed per request. -/
inductive Phase where
  | start (freshId txHash : String)
  | checked (freshId txHash : String)
  | toInsert (freshId txHash : String)
  | conflicted
  | done (r : SendResult)
deriving DecidableEq, Repr

/-- Global state: the shared store and each request's control point. -/
structure GState where
  store : List Transaction
  procs : Nat → Phase

/-- Pointwise update of the control points. -/
def updProcs (procs : Nat → Phase) (i : Nat) (p : Phase) : Nat → Phase :=
  fun j => if j = i then p else procs j

/-- One atomic action of one request against the shared store.  Lookups and
the unique-constrained insert are the shared-state actions; the RPC call
touches no shared state and either yields the request's hash or raises. -/
inductive Step (req : SendTxRequest) : GState → GState → Prop where
  | fastHit (s : GState) (i : Nat) (id h : String) (e : Transaction)
      (hp : s.procs i = .start id h)
      (hc : fastCheck req s.store = some e) :
      Step req s ⟨s.store, updProcs s.procs i (.done (.replayed (respOf e)))⟩
  | fastMiss (s : GState) (i : Nat) (id h : String)
      (hp : s.procs i = .start id h)
      (hc : fastCheck req s.store = none) :
      Step req s ⟨s.store, updProcs s.procs i (.checked id h)⟩
  | rpcOk (s : GState) (i : Nat) (id h : String)
      (hp : s.procs i = .checked id h) :
      Step req s ⟨s.store, updProcs s.procs i (.toInsert id h)⟩
  | rpcFail (s : GState) (i : Nat) (id h : String)
      (hp : s.procs i = .checked id h) :
      Step req s ⟨s.store, updProcs s.procs i (.done .submissionFailed)⟩
  | insertOk (s : GState) (i : Nat) (id h : String) (store2 : List Transaction)
      (hp : s.procs i = .toInsert id h)
      (hi : insertUnique s.store (mkRecord req id h) = .inserted store2) :
      Step req s ⟨store2, updProcs s.procs i (.done (.created ⟨id, h, "submitted"⟩))⟩
  | insertConflict (s : GState) (i : Nat) (id h : String)
      (hp : s.procs i = .toInsert id h)
      (hi : insertUnique s.store (mkRecord req id h) = .conflict) :
      Step req s ⟨s.store, updProcs s.procs i .conflicted⟩
  | rereadHit (s : GState) (i : Nat) (e : Transaction)
      (hp : s.procs i = .conflicted)
      (hc : findByTriple s.store req.chain req.from_address
              req.idempotency_key = some e) :
      Step req s ⟨s.store, updProcs s.procs i (.done (.replayed (respOf e)))⟩
  | rereadMiss (s : GState) (i : Nat)
      (hp : s.procs i = .conflicted)
      (hc : findByTriple s.store req.chain req.from_address
              req.idempotency_key = none) :
      Step req s ⟨s.store, updProcs s.procs i (.done .integrityError)⟩

/-- Reachability under any interleaving of the atomic actions. -/
def Reachable (req : SendTxRequest) : GState → GState → Prop :=
  Relation.ReflTransGen (Step req)

/-- A success response: the 201 `created` or the 200 `replayed` outcome. -/
def successResp (r : SendResult) : Option SendTxResponse :=
  match r with
  | .created resp => some resp
  | .replayed resp => some resp
  | .submissionFailed => none
  | .integrityError => none

/-- Inductive invariant of the race: at most one row with the shared triple
is ever in the store, and every finished request's success response is the
response of a stored row carrying that triple. -/
def RaceInv (req : SendTxRequest) (k : String) (s : GState) : Prop :=
  (s.store.filter (matchesTriple req.chain req.from_address k)).length ≤ 1 ∧
  ∀ i r resp, s.procs i = .done r → successResp r = some resp →
    ∃ e, e ∈ s.store ∧ matchesTriple req.chain req.from_address k e = true ∧
      resp = respOf e

/-! ## Concrete example inputs -/

/-- A spec-shaped sender address: `0x` plus 40 hex characters. -/
def addrA : String := "0x1111111111111111111111111111111111111111"

/-- A spec-shaped recipient address. -/
def addrB : String := "0x2222222222222222222222222222222222222222"

/-- A 42-character address whose tail is accepted by `int(s, 16)` although
it is not 40 hexadecimal characters: a sign followed by 39 hex digits. -/
def addrPlus : String := "0x+111111111111111111111111111111111111111"

/-- The scenario request of the spec and the repository's test suite. -/
def reqEx : SendTxRequest :=
  ⟨"sepolia", addrA, addrB, 1000000000000000, "0x", some "abc-123"⟩

/-- The record created by the first submission of the scenario. -/
def recEx : Transaction := mkRecord reqEx "tx-1" "0xaaa"

/-- The scenario request without an idempotency key. -/
def reqNoKey : SendTxRequest :=
  ⟨"sepolia", addrA, addrB, 1000000000000000, "0x", none⟩

/-- The scenario request with the empty-string idempotency key. -/
def reqEmptyKey : SendTxRequest :=
  ⟨"sepolia", addrA, addrB, 1000000000000000, "0x", some ""⟩

/-- The record created by a first submission with the empty-string key. -/
def recEmpty : Transaction := mkRecord reqEmptyKey "tx-1" "0xaaa"

/-- The record created by a first submission without a key. -/
def recNoKey : Transaction := mkRecord reqNoKey "tx-1" "0xaaa"

/-- A request whose sender address exercises the liberal hex parse. -/
def reqBadAddr : SendTxRequest :=
  ⟨"sepolia", addrPlus, addrB, 5, "0x", none⟩

/-- A request with a chain outside the allow-set. -/
def reqBadChain : SendTxRequest :=
  ⟨"devnet", addrA, addrB, 5, "0x", some "abc-123"⟩

/-- Initial control points of the racing requests: everybody at `start`. -/
def raceProcs0 : Nat → Phase := fun _ => .start "tx-1" "0xaaa"

/-- State after request 0 passes the fast check on the empty store. -/
def raceState1 : GState := ⟨[], updProcs raceProcs0 0 (.checked "tx-1" "0xaaa")⟩

/-- State after request 0 completes its RPC call. -/
def raceState2 : GState :=
  ⟨[], updProcs raceState1.procs 0 (.toInsert "tx-1" "0xaaa")⟩

/-- State after request 0 wins the insert. -/
def raceStateEx : GState :=
  ⟨[] ++ [mkRecord reqEx "tx-1" "0xaaa"],
    updProcs raceState2.procs 0
      (.done (.created ⟨"tx-1", "0xaaa", "submitted"⟩))⟩

/-! ## Helper lemmas -/

theorem truthy_of_ne {k : String} (hne : k ≠ "") : truthy (some k) = true := by
  simp [truthy, hne]

theorem fastCheck_eq_find {req : SendTxRequest} {k : String}
    (hk : req.idempotency_key = some k) (hne : k ≠ "")
    (store : List Transaction) :
    fastCheck req store =
      store.find? (matchesTriple req.chain req.from_address k) := by
  simp [fastCheck, hk, truthy, hne, findByTriple]

theorem insertUnique_of_none {store : List Transaction} {t : Transaction}
    (hk : t.idempotency_key = none) :
    insertUnique store t = .inserted (store ++ [t]) := by
  simp [insertUnique, hk]

theorem insertUnique_of_no_match {store : List Transaction} {t : Transaction}
    {k : String} (hk : t.idempotency_key = some k)
    (hm : store.any (matchesTriple t.chain t.from_address k) = false) :
    insertUnique store t = .inserted (store ++ [t]) := by
  simp [insertUnique, hk, hm]

theorem any_false_of_find_none {store : List Transaction}
    {p : Transaction → Bool} (hf : store.find? p = none) :
    store.any p = false := by
  rw [List.any_eq_false]
  intro x hx
  exact List.find?_eq_none.mp hf x hx

theorem matchesTriple_mkRecord {req : SendTxRequest} {k : String}
    (hk : req.idempotency_key = some k) (id h : String) :
    matchesTriple req.chain req.from_address k (mkRecord req id h) = true := by
  simp [matchesTriple, mkRecord, hk]

theorem find?_append_last {store : List Transaction} {p : Transaction → Bool}
    {t : Transaction} (hf : store.find? p = none) (hp : p t = true) :
    (store ++ [t]).find? p = some t := by
  rw [List.find?_append, hf, Option.none_or, List.find?_cons_of_pos _ hp]

theorem mem_eq_of_length_le_one {α : Type} {l : List α} {a b : α}
    (hl : l.length ≤ 1) (ha : a ∈ l) (hb : b ∈ l) : a = b := by
  match l with
  | [] => cases ha
  | [x] =>
      rw [List.mem_singleton] at ha hb
      rw [ha, hb]
  | x :: y :: r => simp at hl

theorem insertUnique_inserted_eq {store s2 : List Transaction}
    {t : Transaction} (hi : insertUnique store t = .inserted s2) :
    s2 = store ++ [t] := by
  cases hk : t.idempotency_key with
  | none =>
      simp [insertUnique, hk] at hi
      exact hi.symm
  | some k =>
      cases hm : store.any (matchesTriple t.chain t.from_address k) with
      | true => simp [insertUnique, hk, hm] at hi
      | false =>
          simp [insertUnique, hk, hm] at hi
          exact hi.symm

theorem conflict_key_and_match {store : List Transaction} {t : Transaction}
    (hi : insertUnique store t = .conflict) :
    ∃ k, t.idempotency_key = some k ∧
      store.any (matchesTriple t.chain t.from_address k) = true := by
  cases hk : t.idempotency_key with
  | none => simp [insertUnique, hk] at hi
  | some k =>
      cases hm : store.any (matchesTriple t.chain t.from_address k) with
      | true => exact ⟨k, rfl, hm⟩
      | false => simp [insertUnique, hk, hm] at hi

theorem find?_isSome_of_any {store : List Transaction}
    {p : Transaction → Bool} (ha : store.any p = true) :
    ∃ e, store.find? p = some e := by
  cases hfind : store.find? p with
  | none =>
      obtain ⟨x, hx, hpx⟩ := List.any_eq_true.mp ha
      exact absurd hpx (List.find?_eq_none.mp hfind x hx)
  | some e => exact ⟨e, rfl⟩

theorem tripleOk_of_key_none {a t : Transaction}
    (hkt : t.idempotency_key = none) : tripleOk a t := by
  intro hka hcontra
  exact hka (hcontra.2.2.trans hkt)

theorem insertUnique_preserves {store s2 : List Transaction}
    {t : Transaction} (hu : UniqueTriples store)
    (hi : insertUnique store t = .inserted s2) : UniqueTriples s2 := by
  rw [insertUnique_inserted_eq hi]
  rw [UniqueTriples, List.pairwise_append]
  refine ⟨hu, by simp [tripleOk], ?_⟩
  intro a ha b hb
  rw [List.mem_singleton] at hb
  rw [hb]
  cases hk : t.idempotency_key with
  | none => exact tripleOk_of_key_none hk
  | some k =>
      intro hka hcontra
      have hmatch : matchesTriple t.chain t.from_address k a = true := by
        simp [matchesTriple, hcontra.1, hcontra.2.1, hcontra.2.2, hk]
      have hany : store.any (matchesTriple t.chain t.from_address k) = true :=
        List.any_eq_true.mpr ⟨a, ha, hmatch⟩
      simp [insertUnique, hk, hany] at hi

/-! ## Claim theorems -/

/-- C1: for a valid request carrying a (truthy) idempotency key, when a
record with the same (chain, from_address, idempotency_key) triple already
exists in the store, `send_tx` returns that record's identifier, hash and
status as the 200 replay outcome with no RPC call and no store write; and
two sequential identical submissions return the same identifier and hash
both times, with exactly one external call in total (the second call makes
none, whatever its RPC collaborator would answer). -/
theorem idempotent_fast_path :
    (∀ (req : SendTxRequest) (k id : String) (rpc : RpcOutcome)
        (store : List Transaction) (e : Transaction),
      validRequest req = true → req.idempotency_key = some k → k ≠ "" →
      findByTriple store req.chain req.from_address (some k) = some e →
      send_tx req id rpc store = (.replayed (respOf e), store, 0)) ∧
    (∀ (req : SendTxRequest) (k id1 id2 h : String) (rpc2 : RpcOutcome)
        (store : List Transaction),
      validRequest req = true → req.idempotency_key = some k → k ≠ "" →
      findByTriple store req.chain req.from_address (some k) = none →
      send_tx req id1 (.ok h) store =
        (.created ⟨id1, h, "submitted"⟩, store ++ [mkRecord req id1 h], 1) ∧
      send_tx req id2 rpc2 (store ++ [mkRecord req id1 h]) =
        (.replayed ⟨id1, h, "submitted"⟩, store ++ [mkRecord req id1 h], 0)) := by
  constructor
  · intro req k id rpc store e _ hk hne hf
    simp only [findByTriple] at hf
    have hfc : fastCheck req store = some e := by
      rw [fastCheck_eq_find hk hne, hf]
    simp [send_tx, hfc]
  · intro req k id1 id2 h rpc2 store _ hk hne hf
    simp only [findByTriple] at hf
    have hfc : fastCheck req store = none := by
      rw [fastCheck_eq_find hk hne, hf]
    have hkr : (mkRecord req id1 h).idempotency_key = some k := by
      simp [mkRecord, hk]
    have hins : insertUnique store (mkRecord req id1 h) =
        .inserted (store ++ [mkRecord req id1 h]) := by
      refine insertUnique_of_no_match hkr ?_
      simpa [mkRecord] using any_false_of_find_none hf
    constructor
    · simp [send_tx, hfc, hins]
    · have hf2 : (store ++ [mkRecord req id1 h]).find?
          (matchesTriple req.chain req.from_address k) =
          some (mkRecord req id1 h) :=
        find?_append_last hf (matchesTriple_mkRecord hk id1 h)
      have hfc2 : fastCheck req (store ++ [mkRecord req id1 h]) =
          some (mkRecord req id1 h) := by
        rw [fastCheck_eq_find hk hne, hf2]
      have hresp : respOf (mkRecord req id1 h) = ⟨id1, h, "submitted"⟩ := rfl
      simp only [send_tx, hfc2, hresp]

/-- Witness for C1 on the spec's scenario request: replay of an existing
record, and the create-then-replay pair starting from an empty store. -/
theorem idempotent_fast_path_case :
    send_tx reqEx "tx-2" (.ok "0xbb") [recEx] =
      (.replayed (respOf recEx), [recEx], 0) ∧
    send_tx reqEx "tx-1" (.ok "0xaaa") [] =
      (.created ⟨"tx-1", "0xaaa", "submitted"⟩, [recEx], 1) := by
  constructor
  · exact idempotent_fast_path.1 reqEx "abc-123" "tx-2" (.ok "0xbb") [recEx]
      recEx (by decide) rfl (by decide) (by decide)
  · exact (idempotent_fast_path.2 reqEx "abc-123" "tx-1" "tx-2" "0xaaa"
      (.ok "0xbb") [] (by decide) rfl (by decide) rfl).1

/-- C3: whenever the store insert is rejected as a duplicate conflict, the
endpoint discards its own write (the store is returned unchanged), re-reads
the record matching (chain, from_address, idempotency_key), and — the
re-read succeeding — returns that record as a 200 replay success; the
conflict is never surfaced to the caller as an error. -/
theorem conflict_resolved_by_reread :
    ∀ (req : SendTxRequest) (id h : String) (store : List Transaction),
      fastCheck req store = none →
      insertUnique store (mkRecord req id h) = .conflict →
      ∃ e, findByTriple store req.chain req.from_address
          req.idempotency_key = some e ∧
        send_tx req id (.ok h) store = (.replayed (respOf e), store, 1) := by
  intro req id h store hfc hconf
  obtain ⟨k, hkr, hany⟩ := conflict_key_and_match hconf
  have hk : req.idempotency_key = some k := by simpa [mkRecord] using hkr
  have hany' : store.any (matchesTriple req.chain req.from_address k) = true := by
    simpa [mkRecord] using hany
  obtain ⟨e, hfind⟩ := find?_isSome_of_any hany'
  refine ⟨e, ?_, ?_⟩
  · simp [findByTriple, hk, hfind]
  · simp [send_tx, hfc, hconf, findByTriple, hk, hfind]

/-- Witness for C3: with the empty-string key the fast check is skipped, so
a second identical submission hits the conflict path and replays the first
record. -/
theorem conflict_resolved_by_reread_case :
    ∃ e, findByTriple [recEmpty] reqEmptyKey.chain reqEmptyKey.from_address
        reqEmptyKey.idempotency_key = some e ∧
      send_tx reqEmptyKey "tx-2" (.ok "0xbb") [recEmpty] =
        (.replayed (respOf e), [recEmpty], 1) :=
  conflict_resolved_by_reread reqEmptyKey "tx-2" "0xbb" [recEmpty]
    (by decide) (by decide)

/-- C4: when the store rejects the insert as a duplicate conflict but the
subsequent re-read of the triple finds no record, the endpoint fails with
the internal-consistency error (HTTP 500) after its single RPC call, with
no retry.  The second and third conjuncts show that `send_tx_oracle` is the
same control flow as `send_tx`: on the concrete store their outcome and RPC
call count coincide. -/
theorem conflict_reread_empty_internal_error :
    (∀ (req : SendTxRequest) (id h : String),
      send_tx_oracle req id none (.ok h) .conflict none =
        (.integrityError, 1)) ∧
    (∀ (req : SendTxRequest) (id h : String) (store : List Transaction),
      ((send_tx req id (.ok h) store).1, (send_tx req id (.ok h) store).2.2) =
        send_tx_oracle req id
          (findByTriple store req.chain req.from_address req.idempotency_key)
          (.ok h) (insertTag store (mkRecord req id h))
          (findByTriple store req.chain req.from_address
            req.idempotency_key)) ∧
    (∀ (req : SendTxRequest) (id : String) (store : List Transaction)
        (tag : InsertTag) (rr : Option Transaction),
      ((send_tx req id .fail store).1, (send_tx req id .fail store).2.2) =
        send_tx_oracle req id
          (findByTriple store req.chain req.from_address req.idempotency_key)
          .fail tag rr) := by
  refine ⟨?_, ?_, ?_⟩
  · intro req id h
    cases ht : truthy req.idempotency_key <;>
      simp [send_tx_oracle, ht]
  · intro req id h store
    cases ht : truthy req.idempotency_key with
    | true =>
        cases hfind : findByTriple store req.chain req.from_address
            req.idempotency_key with
        | some e => simp [send_tx, send_tx_oracle, fastCheck, ht, hfind]
        | none =>
            cases hins : insertUnique store (mkRecord req id h) with
            | inserted s2 =>
                simp [send_tx, send_tx_oracle, fastCheck, insertTag, ht,
                  hfind, hins]
            | conflict =>
                simp [send_tx, send_tx_oracle, fastCheck, insertTag, ht,
                  hfind, hins]
    | false =>
        cases hins : insertUnique store (mkRecord req id h) with
        | inserted s2 =>
            simp [send_tx, send_tx_oracle, fastCheck, insertTag, ht, hins]
        | conflict =>
            cases hfind : findByTriple store req.chain req.from_address
                req.idempotency_key with
            | some e =>
                simp [send_tx, send_tx_oracle, fastCheck, insertTag, ht,
                  hfind, hins]
            | none =>
                simp [send_tx, send_tx_oracle, fastCheck, insertTag, ht,
                  hfind, hins]
  · intro req id store tag rr
    cases ht : truthy req.idempotency_key with
    | true =>
        cases hfind : findByTriple store req.chain req.from_address
            req.idempotency_key with
        | some e => simp [send_tx, send_tx_oracle, fastCheck, ht, hfind]
        | none => simp [send_tx, send_tx_oracle, fastCheck, ht, hfind]
    | false => simp [send_tx, send_tx_oracle, fastCheck, ht]

/-- C5: when the request reaches the external submission step and the RPC
call fails, the endpoint fails with the submission error, writes nothing,
and leaves the store unchanged; a later retry with the same idempotency key
(no record of the triple existing) performs a fresh submission — one RPC
call producing a newly created record — rather than a replay. -/
theorem submission_failure_no_write :
    (∀ (req : SendTxRequest) (id : String) (store : List Transaction),
      fastCheck req store = none →
      send_tx req id .fail store = (.submissionFailed, store, 1)) ∧
    (∀ (req : SendTxRequest) (k id2 h2 : String) (store : List Transaction),
      req.idempotency_key = some k →
      findByTriple store req.chain req.from_address (some k) = none →
      send_tx req id2 (.ok h2) store =
        (.created ⟨id2, h2, "submitted"⟩, store ++ [mkRecord req id2 h2], 1)) ∧
    (∀ (req : SendTxRequest) (id2 h2 : String) (store : List Transaction),
      req.idempotency_key = none →
      send_tx req id2 (.ok h2) store =
        (.created ⟨id2, h2, "submitted"⟩,
          store ++ [mkRecord req id2 h2], 1)) := by
  refine ⟨?_, ?_, ?_⟩
  · intro req id store hfc
    simp [send_tx, hfc]
  · intro req k id2 h2 store hk hf
    simp only [findByTriple] at hf
    have hfb : findByTriple store req.chain req.from_address (some k) =
        none := by
      simp [findByTriple, hf]
    have hfc : fastCheck req store = none := by
      simp [fastCheck, hk, hfb]
    have hkr : (mkRecord req id2 h2).idempotency_key = some k := by
      simp [mkRecord, hk]
    have hins : insertUnique store (mkRecord req id2 h2) =
        .inserted (store ++ [mkRecord req id2 h2]) := by
      refine insertUnique_of_no_match hkr ?_
      simpa [mkRecord] using any_false_of_find_none hf
    simp [send_tx, hfc, hins]
  · intro req id2 h2 store hk
    have hfc : fastCheck req store = none := by
      simp [fastCheck, truthy, hk]
    have hins : insertUnique store (mkRecord req id2 h2) =
        .inserted (store ++ [mkRecord req id2 h2]) :=
      insertUnique_of_none (by simp [mkRecord, hk])
    simp [send_tx, hfc, hins]

/-- Witness for C5: a failed RPC call on the scenario request leaves the
empty store empty, and the retry then creates the record with one call. -/
theorem submission_failure_no_write_case :
    send_tx reqEx "tx-1" .fail [] = (.submissionFailed, [], 1) ∧
    send_tx reqEx "tx-1" (.ok "0xaaa") [] =
      (.created ⟨"tx-1", "0xaaa", "submitted"⟩, [recEx], 1) := by
  constructor
  · exact submission_failure_no_write.1 reqEx "tx-1" [] (by decide)
  · exact submission_failure_no_write.2.1 reqEx "abc-123" "tx-1" "0xaaa" []
      rfl rfl

/-- C8: the 201 `created` and the 200 `replayed` outcomes are the two
success signals, carrying the same response shape.  A fast-check hit
signals `replayed` (never `created`) with no write; conflict recovery
signals `replayed` (never `created`) with no write; and any call that
signals `created` appended exactly the freshly identified record to the
store after its single RPC call. -/
theorem created_and_replayed_signals :
    (∀ (req : SendTxRequest) (id : String) (rpc : RpcOutcome)
        (store : List Transaction) (e : Transaction),
      fastCheck req store = some e →
      send_tx req id rpc store = (.replayed (respOf e), store, 0)) ∧
    (∀ (req : SendTxRequest) (id h : String) (store : List Transaction)
        (e : Transaction),
      fastCheck req store = none →
      insertUnique store (mkRecord req id h) = .conflict →
      findByTriple store req.chain req.from_address
          req.idempotency_key = some e →
      send_tx req id (.ok h) store = (.replayed (respOf e), store, 1)) ∧
    (∀ (req : SendTxRequest) (id h : String)
        (store store2 : List Transaction) (resp : SendTxResponse) (c : Nat),
      send_tx req id (.ok h) store = (.created resp, store2, c) →
      resp = ⟨id, h, "submitted"⟩ ∧
        store2 = store ++ [mkRecord req id h] ∧ c = 1) := by
  refine ⟨?_, ?_, ?_⟩
  · intro req id rpc store e hfc
    simp [send_tx, hfc]
  · intro req id h store e hfc hconf hfind
    simp [send_tx, hfc, hconf, hfind]
  · intro req id h store store2 resp c heq
    cases hfc : fastCheck req store with
    | some e =>
        have hsend : send_tx req id (.ok h) store =
            (.replayed (respOf e), store, 0) := by simp [send_tx, hfc]
        rw [hsend] at heq
        simp at heq
    | none =>
        cases hins : insertUnique store (mkRecord req id h) with
        | inserted s2 =>
            have hsend : send_tx req id (.ok h) store =
                (.created ⟨id, h, "submitted"⟩, s2, 1) := by
              simp [send_tx, hfc, hins]
            rw [hsend] at heq
            simp only [Prod.mk.injEq] at heq
            obtain ⟨h1, h2, h3⟩ := heq
            refine ⟨?_, ?_, h3.symm⟩
            · exact ((SendResult.created.injEq _ _).mp h1).symm
            · rw [← h2]
              exact insertUnique_inserted_eq hins
        | conflict =>
            cases hfind : findByTriple store req.chain req.from_address
                req.idempotency_key with
            | some e =>
                have hsend : send_tx req id (.ok h) store =
                    (.replayed (respOf e), store, 1) := by
                  simp [send_tx, hfc, hins, hfind]
                rw [hsend] at heq
                simp at heq
            | none =>
                have hsend : send_tx req id (.ok h) store =
                    (.integrityError, store, 1) := by
                  simp [send_tx, hfc, hins, hfind]
                rw [hsend] at heq
                simp at heq

/-- Witness for C8: the fast-check hit on the scenario request signals the
200 replay outcome with no write and no RPC call. -/
theorem created_and_replayed_signals_case :
    send_tx reqEx "tx-2" (.ok "0xbb") [recEx] =
      (.replayed (respOf recEx), [recEx], 0) ∧ respOf recEx ≠ ⟨"tx-2", "0xbb", "submitted"⟩ :=
  ⟨created_and_replayed_signals.1 reqEx "tx-2" (.ok "0xbb") [recEx] recEx
    (by decide), by decide⟩

/-- C9: with no idempotency key, every submission performs its own RPC call
and persists its own record; two identical submissions produce two distinct
records with distinct identifiers — neither the fast check nor the unique
constraint deduplicates null-key records. -/
theorem no_key_no_dedup :
    ∀ (req : SendTxRequest) (id1 id2 h1 h2 : String)
        (store : List Transaction),
      req.idempotency_key = none → id1 ≠ id2 →
      send_tx req id1 (.ok h1) store =
        (.created ⟨id1, h1, "submitted"⟩, store ++ [mkRecord req id1 h1], 1) ∧
      send_tx req id2 (.ok h2) (store ++ [mkRecord req id1 h1]) =
        (.created ⟨id2, h2, "submitted"⟩,
          store ++ [mkRecord req id1 h1] ++ [mkRecord req id2 h2], 1) ∧
      mkRecord req id1 h1 ≠ mkRecord req id2 h2 ∧
      (mkRecord req id1 h1).tx_id ≠ (mkRecord req id2 h2).tx_id := by
  intro req id1 id2 h1 h2 store hk hid
  have hone : ∀ (id h : String) (st : List Transaction),
      send_tx req id (.ok h) st =
        (.created ⟨id, h, "submitted"⟩, st ++ [mkRecord req id h], 1) := by
    intro id h st
    have hfc : fastCheck req st = none := by
      simp [fastCheck, truthy, hk]
    have hins : insertUnique st (mkRecord req id h) =
        .inserted (st ++ [mkRecord req id h]) :=
      insertUnique_of_none (by simp [mkRecord, hk])
    simp [send_tx, hfc, hins]
  refine ⟨hone id1 h1 store, hone id2 h2 _, ?_, ?_⟩
  · intro hcontra
    exact hid (congrArg Transaction.tx_id hcontra)
  · simpa [mkRecord] using hid

/-- Witness for C9: two identical key-less submissions yield two records. -/
theorem no_key_no_dedup_case :
    send_tx reqNoKey "tx-1" (.ok "0xaaa") [] =
      (.created ⟨"tx-1", "0xaaa", "submitted"⟩, [recNoKey], 1) ∧
    send_tx reqNoKey "tx-2" (.ok "0xbb") [recNoKey] =
      (.created ⟨"tx-2", "0xbb", "submitted"⟩,
        [recNoKey, mkRecord reqNoKey "tx-2" "0xbb"], 1) := by
  have h := no_key_no_dedup reqNoKey "tx-1" "tx-2" "0xaaa" "0xbb" []
    rfl (by decide)
  exact ⟨h.1, h.2.1⟩

/-- C10: with the empty-string key the fast idempotency check is skipped
(the key is falsy), so every call performs the RPC call; yet the empty
string is a non-null key under the unique constraint, so once a record with
the triple exists every later identical call takes the conflict path and
replays the first record's identifier and hash while the store stays
unchanged. -/
theorem empty_key_conflict_replay :
    ∀ (req : SendTxRequest) (id1 h1 : String) (store : List Transaction),
      req.idempotency_key = some "" →
      store.any (matchesTriple req.chain req.from_address "") = false →
      send_tx req id1 (.ok h1) store =
        (.created ⟨id1, h1, "submitted"⟩, store ++ [mkRecord req id1 h1], 1) ∧
      (∀ (id2 h2 : String) (store2 : List Transaction) (e : Transaction),
        store2.find? (matchesTriple req.chain req.from_address "") = some e →
        send_tx req id2 (.ok h2) store2 = (.replayed (respOf e), store2, 1)) ∧
      (∀ (id2 h2 : String),
        send_tx req id2 (.ok h2) (store ++ [mkRecord req id1 h1]) =
          (.replayed ⟨id1, h1, "submitted"⟩,
            store ++ [mkRecord req id1 h1], 1)) := by
  intro req id1 h1 store hk hm
  have hfcAll : ∀ st : List Transaction, fastCheck req st = none := by
    intro st
    simp [fastCheck, truthy, hk]
  have hlater : ∀ (id2 h2 : String) (store2 : List Transaction)
      (e : Transaction),
      store2.find? (matchesTriple req.chain req.from_address "") = some e →
      send_tx req id2 (.ok h2) store2 = (.replayed (respOf e), store2, 1) := by
    intro id2 h2 store2 e hfind
    have hany : store2.any (matchesTriple req.chain req.from_address "") =
        true :=
      List.any_eq_true.mpr
        ⟨e, List.mem_of_find?_eq_some hfind, List.find?_some hfind⟩
    have hconf : insertUnique store2 (mkRecord req id2 h2) = .conflict := by
      simp only [insertUnique, mkRecord, hk]
      simpa [mkRecord] using hany
    simp [send_tx, hfcAll store2, hconf, findByTriple, hk, hfind]
  refine ⟨?_, hlater, ?_⟩
  · have hkr : (mkRecord req id1 h1).idempotency_key = some "" := by
      simp [mkRecord, hk]
    have hins : insertUnique store (mkRecord req id1 h1) =
        .inserted (store ++ [mkRecord req id1 h1]) := by
      refine insertUnique_of_no_match hkr ?_
      simpa [mkRecord] using hm
    simp [send_tx, hfcAll store, hins]
  · intro id2 h2
    have hfind1 : store.find?
        (matchesTriple req.chain req.from_address "") = none :=
      List.find?_eq_none.mpr (List.any_eq_false.mp hm)
    have hfind2 : (store ++ [mkRecord req id1 h1]).find?
        (matchesTriple req.chain req.from_address "") =
        some (mkRecord req id1 h1) :=
      find?_append_last hfind1 (matchesTriple_mkRecord hk id1 h1)
    exact hlater id2 h2 _ _ hfind2

/-- Witness for C10: the empty-string key creates on the first call, then
replays through the conflict path on the second, one RPC call each. -/
theorem empty_key_conflict_replay_case :
    send_tx reqEmptyKey "tx-1" (.ok "0xaaa") [] =
      (.created ⟨"tx-1", "0xaaa", "submitted"⟩, [recEmpty], 1) ∧
    send_tx reqEmptyKey "tx-2" (.ok "0xbb") [recEmpty] =
      (.replayed ⟨"tx-1", "0xaaa", "submitted"⟩, [recEmpty], 1) := by
  have h := empty_key_conflict_replay reqEmptyKey "tx-1" "0xaaa" []
    rfl (by decide)
  exact ⟨h.1, h.2.2 "tx-2" "0xbb"⟩

/-- C6 counterexample: the claim "an address not exactly `0x` followed by
40 hexadecimal characters causes rejection" fails on the code.  The sender
address `0x` + `+` + 39 hex digits is not 40 hex characters, yet
`int(v[2:], 16)` accepts the leading sign, so the validator passes the
request, the RPC call fires and a record is written. -/
theorem validation_gap_counterexample :
    specAddressShape reqBadAddr.from_address = false ∧
    validRequest reqBadAddr = true ∧
    handle reqBadAddr "tx-1" (.ok "0xcc") [] =
      (.ok (.created ⟨"tx-1", "0xcc", "submitted"⟩),
        [mkRecord reqBadAddr "tx-1" "0xcc"], 1) :=
  ⟨by decide, by decide, by decide⟩

/-- C6 amended: the shape validator rejects a request — client-error
outcome, zero external calls, zero store writes — whenever the chain is
outside the allow-set, or an address fails the code's address check (the
`0x` lead, the 42-character length, or the Python base-16 parse of the
tail, which also tolerates a sign, a redundant `0x` marker, underscores
between digits and surrounding whitespace), or the value is negative, or
the payload does not start with `0x`; each violation independently causes
rejection. -/
theorem validation_each_violation_rejects :
    ∀ (r : SendTxRequest) (id : String) (rpc : RpcOutcome)
        (store : List Transaction),
      (validate_chain r.chain = false →
        handle r id rpc store = (.validationError, store, 0)) ∧
      (validate_address r.from_address = false →
        handle r id rpc store = (.validationError, store, 0)) ∧
      (validate_address r.to_address = false →
        handle r id rpc store = (.validationError, store, 0)) ∧
      (r.value_wei < 0 →
        handle r id rpc store = (.validationError, store, 0)) ∧
      (validate_data r.data = false →
        handle r id rpc store = (.validationError, store, 0)) := by
  intro r id rpc store
  refine ⟨?_, ?_, ?_, ?_, ?_⟩
  · intro hviol
    have hv : validRequest r = false := by simp [validRequest, hviol]
    simp [handle, hv]
  · intro hviol
    have hv : validRequest r = false := by simp [validRequest, hviol]
    simp [handle, hv]
  · intro hviol
    have hv : validRequest r = false := by simp [validRequest, hviol]
    simp [handle, hv]
  · intro hviol
    have hv : validRequest r = false := by
      simp [validRequest, validate_value, hviol]
    simp [handle, hv]
  · intro hviol
    have hv : validRequest r = false := by simp [validRequest, hviol]
    simp [handle, hv]

/-- Witness for the amended C6: the out-of-allow-set chain is rejected
before any RPC call or store write. -/
theorem validation_each_violation_rejects_case :
    handle reqBadChain "tx-1" (.ok "0xcc") [] = (.validationError, [], 0) :=
  (validation_each_violation_rejects reqBadChain "tx-1" (.ok "0xcc") []).1
    (by decide)

/-- C7: any two distinct records with non-null idempotency keys differ in
their (chain, from_address, idempotency_key) triple, in every reachable
store: the store's unique-constrained insert preserves the invariant (it
is the sole enforcer — it refuses exactly the violating inserts), and
every path of the endpoint preserves it. -/
theorem uniqueness_invariant_preserved :
    (∀ (store s2 : List Transaction) (t : Transaction),
      UniqueTriples store → insertUnique store t = .inserted s2 →
      UniqueTriples s2) ∧
    (∀ (req : SendTxRequest) (id : String) (rpc : RpcOutcome)
        (store : List Transaction),
      UniqueTriples store →
      UniqueTriples (send_tx req id rpc store).2.1) := by
  refine ⟨fun store s2 t hu hi => insertUnique_preserves hu hi, ?_⟩
  intro req id rpc store hu
  cases hfc : fastCheck req store with
  | some e => simpa [send_tx, hfc] using hu
  | none =>
      cases rpc with
      | fail => simpa [send_tx, hfc] using hu
      | ok h =>
          cases hinsr : insertUnique store (mkRecord req id h) with
          | inserted s2 =>
              have hsend : send_tx req id (.ok h) store =
                  (.created ⟨id, h, "submitted"⟩, s2, 1) := by
                simp [send_tx, hfc, hinsr]
              rw [hsend]
              exact insertUnique_preserves hu hinsr
          | conflict =>
              cases hfind : findByTriple store req.chain req.from_address
                  req.idempotency_key with
              | some e => simpa [send_tx, hfc, hinsr, hfind] using hu
              | none => simpa [send_tx, hfc, hinsr, hfind] using hu

/-- Witness for C7: starting from the empty store, the store produced by
the scenario submission still satisfies the uniqueness invariant. -/
theorem uniqueness_invariant_preserved_case :
    UniqueTriples (send_tx reqEx "tx-1" (.ok "0xaaa") []).2.1 :=
  uniqueness_invariant_preserved.2 reqEx "tx-1" (.ok "0xaaa") []
    List.Pairwise.nil

theorem findByTriple_some_elim {store : List Transaction}
    {chain fromA k : String} {e : Transaction}
    (hc : findByTriple store chain fromA (some k) = some e) :
    e ∈ store ∧ matchesTriple chain fromA k e = true := by
  simp only [findByTriple] at hc
  exact ⟨List.mem_of_find?_eq_some hc, List.find?_some hc⟩

theorem fastCheck_some_elim {req : SendTxRequest}
    {store : List Transaction} {e : Transaction} {k : String}
    (hk : req.idempotency_key = some k)
    (hc : fastCheck req store = some e) :
    e ∈ store ∧ matchesTriple req.chain req.from_address k e = true := by
  unfold fastCheck at hc
  by_cases ht : truthy req.idempotency_key = true
  · rw [if_pos ht, hk] at hc
    exact findByTriple_some_elim hc
  · rw [if_neg ht] at hc
    cases hc

theorem inserted_any_false {store s2 : List Transaction} {t : Transaction}
    {k : String} (hk : t.idempotency_key = some k)
    (hi : insertUnique store t = .inserted s2) :
    store.any (matchesTriple t.chain t.from_address k) = false := by
  cases hm : store.any (matchesTriple t.chain t.from_address k) with
  | false => rfl
  | true => simp [insertUnique, hk, hm] at hi

theorem raceInv_step {req : SendTxRequest} {k : String}
    (hk : req.idempotency_key = some k) {s s2 : GState}
    (hstep : Step req s s2) (hinv : RaceInv req k s) : RaceInv req k s2 := by
  obtain ⟨hcount, hresp⟩ := hinv
  cases hstep with
  | fastHit i id h e hp hc =>
      refine ⟨hcount, ?_⟩
      intro j r resp hj hsr
      by_cases hji : j = i
      · rw [hji] at hj
        simp only [updProcs, if_pos rfl] at hj
        obtain ⟨hmem, hmatch⟩ := fastCheck_some_elim hk hc
        cases hj2 : r with
        | replayed rr =>
            rw [hj2] at hj hsr
            simp only [successResp, Option.some.injEq] at hsr
            have : rr = respOf e := by
              have := (Phase.done.injEq _ _).mp hj
              exact ((SendResult.replayed.injEq _ _).mp this).symm
            exact ⟨e, hmem, hmatch, by rw [← hsr, this]⟩
        | created rr => rw [hj2] at hj; simp at hj
        | submissionFailed => rw [hj2] at hsr; simp [successResp] at hsr
        | integrityError => rw [hj2] at hsr; simp [successResp] at hsr
      · simp only [updProcs, if_neg hji] at hj
        exact hresp j r resp hj hsr
  | fastMiss i id h hp hc =>
      refine ⟨hcount, ?_⟩
      intro j r resp hj hsr
      by_cases hji : j = i
      · rw [hji] at hj
        simp only [updProcs, if_pos rfl] at hj
        cases hj
      · simp only [updProcs, if_neg hji] at hj
        exact hresp j r resp hj hsr
  | rpcOk i id h hp =>
      refine ⟨hcount, ?_⟩
      intro j r resp hj hsr
      by_cases hji : j = i
      · rw [hji] at hj
        simp only [updProcs, if_pos rfl] at hj
        cases hj
      · simp only [updProcs, if_neg hji] at hj
        exact hresp j r resp hj hsr
  | rpcFail i id h hp =>
      refine ⟨hcount, ?_⟩
      intro j r resp hj hsr
      by_cases hji : j = i
      · rw [hji] at hj
        simp only [updProcs, if_pos rfl] at hj
        have : r = .submissionFailed := by
          exact ((Phase.done.injEq _ _).mp hj).symm
        rw [this] at hsr
        simp [successResp] at hsr
      · simp only [updProcs, if_neg hji] at hj
        exact hresp j r resp hj hsr
  | insertOk i id h store2 hp hi =>
      have hkr : (mkRecord req id h).idempotency_key = some k := by
        simp [mkRecord, hk]
      have hs2 : store2 = s.store ++ [mkRecord req id h] :=
        insertUnique_inserted_eq hi
      have hanyf : s.store.any
          (matchesTriple req.chain req.from_address k) = false := by
        simpa [mkRecord] using inserted_any_false hkr hi
      have hfilnil : s.store.filter
          (matchesTriple req.chain req.from_address k) = [] :=
        List.filter_eq_nil_iff.mpr (List.any_eq_false.mp hanyf)
      have hmatch : matchesTriple req.chain req.from_address k
          (mkRecord req id h) = true := matchesTriple_mkRecord hk id h
      constructor
      · show (store2.filter
            (matchesTriple req.chain req.from_address k)).length ≤ 1
        rw [hs2, List.filter_append, hfilnil]
        simp [hmatch]
      · intro j r resp hj hsr
        by_cases hji : j = i
        · rw [hji] at hj
          simp only [updProcs, if_pos rfl] at hj
          cases hj2 : r with
          | created rr =>
              rw [hj2] at hj hsr
              simp only [successResp, Option.some.injEq] at hsr
              have : rr = ⟨id, h, "submitted"⟩ := by
                have := (Phase.done.injEq _ _).mp hj
                exact ((SendResult.created.injEq _ _).mp this).symm
              refine ⟨mkRecord req id h, ?_, hmatch, ?_⟩
              · rw [hs2]
                exact List.mem_append_right _ (List.mem_singleton.mpr rfl)
              · rw [← hsr, this]
                rfl
          | replayed rr => rw [hj2] at hj; simp at hj
          | submissionFailed => rw [hj2] at hsr; simp [successResp] at hsr
          | integrityError => rw [hj2] at hsr; simp [successResp] at hsr
        · simp only [updProcs, if_neg hji] at hj
          obtain ⟨e, hmem, hm, hre⟩ := hresp j r resp hj hsr
          refine ⟨e, ?_, hm, hre⟩
          rw [hs2]
          exact List.mem_append_left _ hmem
  | insertConflict i id h hp hi =>
      refine ⟨hcount, ?_⟩
      intro j r resp hj hsr
      by_cases hji : j = i
      · rw [hji] at hj
        simp only [updProcs, if_pos rfl] at hj
        cases hj
      · simp only [updProcs, if_neg hji] at hj
        exact hresp j r resp hj hsr
  | rereadHit i e hp hc =>
      refine ⟨hcount, ?_⟩
      intro j r resp hj hsr
      by_cases hji : j = i
      · rw [hji] at hj
        simp only [updProcs, if_pos rfl] at hj
        rw [hk] at hc
        obtain ⟨hmem, hmatch⟩ := findByTriple_some_elim hc
        cases hj2 : r with
        | replayed rr =>
            rw [hj2] at hj hsr
            simp only [successResp, Option.some.injEq] at hsr
            have : rr = respOf e := by
              have := (Phase.done.injEq _ _).mp hj
              exact ((SendResult.replayed.injEq _ _).mp this).symm
            exact ⟨e, hmem, hmatch, by rw [← hsr, this]⟩
        | created rr => rw [hj2] at hj; simp at hj
        | submissionFailed => rw [hj2] at hsr; simp [successResp] at hsr
        | integrityError => rw [hj2] at hsr; simp [successResp] at hsr
      · simp only [updProcs, if_neg hji] at hj
        exact hresp j r resp hj hsr
  | rereadMiss i hp hc =>
      refine ⟨hcount, ?_⟩
      intro j r resp hj hsr
      by_cases hji : j = i
      · rw [hji] at hj
        simp only [updProcs, if_pos rfl] at hj
        have : r = .integrityError := ((Phase.done.injEq _ _).mp hj).symm
        rw [this] at hsr
        simp [successResp] at hsr
      · simp only [updProcs, if_neg hji] at hj
        exact hresp j r resp hj hsr

theorem raceInv_reachable {req : SendTxRequest} {k : String}
    (hk : req.idempotency_key = some k) {s0 s : GState}
    (h0 : RaceInv req k s0) (hr : Reachable req s0 s) : RaceInv req k s := by
  induction hr with
  | refl => exact h0
  | tail _ hstep ih => exact raceInv_step hk hstep ih

/-- C2: for a fixed request with a non-null idempotency key, under any
interleaving of the atomic actions of any number of concurrent requests
starting from a store without the triple, at most one record with the
(chain, from_address, idempotency_key) triple is ever in the store, every
finished request's success response is the response of a stored record
with that triple, and hence any two finished success responses carry the
same identifier and hash — the winner being the one request whose
unique-constrained insert was accepted by the store. -/
theorem race_single_winner :
    ∀ (req : SendTxRequest) (k : String) (store0 : List Transaction)
        (procs0 : Nat → Phase) (s : GState),
      req.idempotency_key = some k →
      store0.filter (matchesTriple req.chain req.from_address k) = [] →
      (∀ i, ∃ id h, procs0 i = .start id h) →
      Reachable req ⟨store0, procs0⟩ s →
      (s.store.filter (matchesTriple req.chain req.from_address k)).length
          ≤ 1 ∧
      (∀ i r resp, s.procs i = .done r → successResp r = some resp →
        ∃ e, e ∈ s.store ∧
          matchesTriple req.chain req.from_address k e = true ∧
          resp = respOf e) ∧
      (∀ i j ri rj respi respj,
        s.procs i = .done ri → successResp ri = some respi →
        s.procs j = .done rj → successResp rj = some respj →
        respi = respj) := by
  intro req k store0 procs0 s hk h0 hstart hr
  have hinv0 : RaceInv req k ⟨store0, procs0⟩ := by
    constructor
    · simp [h0]
    · intro i r resp hj hsr
      obtain ⟨id, h, hph⟩ := hstart i
      have hj2 : procs0 i = Phase.done r := hj
      rw [hph] at hj2
      cases hj2
  have hinv := raceInv_reachable hk hinv0 hr
  obtain ⟨hcount, hresp⟩ := hinv
  refine ⟨hcount, hresp, ?_⟩
  intro i j ri rj respi respj hi hsi hjj hsj
  obtain ⟨ei, hei, hmi, hrespi⟩ := hresp i ri respi hi hsi
  obtain ⟨ej, hej, hmj, hrespj⟩ := hresp j rj respj hjj hsj
  have heq : ei = ej :=
    mem_eq_of_length_le_one hcount
      (List.mem_filter.mpr ⟨hei, hmi⟩) (List.mem_filter.mpr ⟨hej, hmj⟩)
  rw [hrespi, hrespj, heq]

/-- Witness for C2: a three-step interleaving in which request 0 passes
the fast check, calls the RPC collaborator and wins the insert; the
reached state satisfies all three conclusions. -/
theorem race_single_winner_case :
    (raceStateEx.store.filter
        (matchesTriple reqEx.chain reqEx.from_address "abc-123")).length
      ≤ 1 ∧
    (∀ i r resp, raceStateEx.procs i = .done r →
      successResp r = some resp →
      ∃ e, e ∈ raceStateEx.store ∧
        matchesTriple reqEx.chain reqEx.from_address "abc-123" e = true ∧
        resp = respOf e) ∧
    (∀ i j ri rj respi respj,
      raceStateEx.procs i = .done ri → successResp ri = some respi →
      raceStateEx.procs j = .done rj → successResp rj = some respj →
      respi = respj) :=
  race_single_winner reqEx "abc-123" [] raceProcs0 raceStateEx rfl rfl
    (fun _ => ⟨"tx-1", "0xaaa", rfl⟩)
    (Relation.ReflTransGen.tail
      (Relation.ReflTransGen.tail
        (Relation.ReflTransGen.tail Relation.ReflTransGen.refl
          (Step.fastMiss ⟨[], raceProcs0⟩ 0 "tx-1" "0xaaa" rfl (by decide)))
        (Step.rpcOk raceState1 0 "tx-1" "0xaaa" rfl))
      (Step.insertOk raceState2 0 "tx-1" "0xaaa"
        ([] ++ [mkRecord reqEx "tx-1" "0xaaa"]) rfl (by decide)))

end SendTxService
